import Mathlib

/-!
Verification of the leaderboard scoring and ranking core of the
Virtual Hackathon / Game Jam Platform.

Shallow embedding of the relevant JavaScript source:
  * `server/models/Submission.js` — the Submission document, the pre-save
    aggregation hook and the `autoJudge` method;
  * `server/routes/submissions.js` — the vote, judge, and
    `updateEventLeaderboard` handlers;
  * `server/routes/events.js` — the leaderboard GET route and the
    organizer-triggered `update-leaderboard` route.

Scores are modelled as rationals (JavaScript numeric expressions here are
exact on the inputs of interest), identities as naturals, and timestamps as
naturals (a `now` parameter makes the impure `Date.now()` calls explicit).
The JavaScript engine sort (`Array.prototype.sort`, which ECMAScript
requires to be stable) is modelled by `List.insertionSort` with the
comparator relation, since every stable sort by the same total preorder
produces the same list.
-/

/-- lifecycle status of a submission (`status` enum in Submission.js). -/
inductive SubStatus where
  | draft | submitted | underReview | approved | rejected
deriving DecidableEq, Repr

/-- judging status of a submission (`judging.status` enum). -/
inductive JudgingStatus where
  | pending | judging | judged
deriving DecidableEq, Repr

/-- status of an event (`status` enum in Event.js). -/
inductive EventStatus where
  | upcoming | active | judging | completed
deriving DecidableEq, Repr

/-- one judge (or auto-judge) score entry, `judging.scores[i]` in
Submission.js.  Auto-judged records carry no judge identity, hence
`judge : Option Nat`. -/
structure ScoreRecord where
  criterion : String
  score : ℚ
  maxScore : ℚ
  judge : Option Nat
  feedback : Option String
  timestamp : Nat
deriving DecidableEq, Repr

/-- one public vote, `voting.votes[i]` in Submission.js. -/
structure Vote where
  user : Nat
  score : ℚ
  timestamp : Nat
deriving DecidableEq, Repr

/-- the `judging` sub-document of a submission. -/
structure JudgingBlock where
  scores : List ScoreRecord
  totalScore : ℚ
  averageScore : ℚ
  status : JudgingStatus
deriving DecidableEq, Repr

/-- the `voting` sub-document of a submission. -/
structure VotingBlock where
  publicVotes : ℚ
  votes : List Vote
deriving DecidableEq, Repr

/-- the `metadata` sub-document of a submission.  Numeric fields are
optional; `technologies` is optional as a whole (a JavaScript array is
truthy even when empty, so only its presence matters to `autoJudge`). -/
structure SubmissionMetadata where
  linesOfCode : Option ℚ
  commits : Option ℚ
  contributors : Option ℚ
  technologies : Option (List String)
  innovation : Option ℚ
  completeness : Option ℚ
  documentation : Option ℚ
  presentation : Option ℚ
deriving DecidableEq, Repr

/-- the slice of a Submission document that the scoring core reads and
writes.  `id` stands for the Mongo `_id`, `team` for the team reference. -/
structure Submission where
  id : Nat
  team : Nat
  metadata : Option SubmissionMetadata
  judging : JudgingBlock
  voting : VotingBlock
  status : SubStatus
deriving DecidableEq, Repr

/-- one leaderboard entry, `event.leaderboard[i]` in Event.js. -/
structure LBEntry where
  team : Nat
  submission : Nat
  totalScore : ℚ
  scores : List ScoreRecord
  rank : Nat
  updatedAt : Nat
deriving DecidableEq, Repr

/-- the slice of an Event document that the scoring core touches.  The
source stores submission ids and populates them before use; the embedding
inlines the populated documents. -/
structure Event where
  organizer : Nat
  status : EventStatus
  isAutomated : Bool
  judges : List Nat
  submissions : List Submission
  leaderboard : List LBEntry
deriving DecidableEq, Repr

/-- truthiness of an optional JavaScript number: absent and zero are falsy. -/
def numTruthy : Option ℚ → Bool
  | none => false
  | some v => decide (v ≠ 0)

/-- sum of the `score` fields of a score list, the
`reduce((sum, score) => sum + score.score, 0)` of the pre-save hook. -/
def scoreSum (l : List ScoreRecord) : ℚ :=
  l.foldl (fun sum r => sum + r.score) 0

/-- sum of the `score` fields of a vote list. -/
def voteSum (l : List Vote) : ℚ :=
  l.foldl (fun sum v => sum + v.score) 0

/-- the first block of the pre-save hook of SubmissionSchema
(Submission.js lines 109-115): when the judge score list is non-empty,
recompute `totalScore` as the plain sum and `averageScore` as that sum
divided by the record count; an empty list leaves both untouched. -/
def applyJudgingAgg (s : Submission) : Submission :=
  if s.judging.scores.length > 0 then
    { s with judging :=
      { s.judging with
          totalScore := scoreSum s.judging.scores
          averageScore := scoreSum s.judging.scores / (s.judging.scores.length : ℚ) } }
  else s

/-- the second block of the pre-save hook (Submission.js lines 118-120):
when the vote list is non-empty, recompute `publicVotes` as the vote
mean; an empty list leaves it untouched. -/
def applyVotingAgg (s : Submission) : Submission :=
  if s.voting.votes.length > 0 then
    { s with voting :=
      { s.voting with
          publicVotes := voteSum s.voting.votes / (s.voting.votes.length : ℚ) } }
  else s

/-- the pre-save hook of SubmissionSchema (Submission.js lines 108-123),
its two sequential blocks composed. -/
def preSaveHook (s : Submission) : Submission :=
  applyVotingAgg (applyJudgingAgg s)

/-- the score list produced by `autoJudge` (Submission.js lines 129-181)
from a present metadata block, with `now` standing for `Date.now()`.  The
Technical Complexity record needs `technologies` present (arrays are
always truthy) together with a truthy `linesOfCode`. -/
def autoJudgeScores (m : SubmissionMetadata) (now : Nat) : List ScoreRecord :=
  (if numTruthy m.innovation then
    [{ criterion := "Innovation", score := m.innovation.getD 0 * 10,
       maxScore := 100, judge := none, feedback := none, timestamp := now }]
   else []) ++
  (if m.technologies.isSome && numTruthy m.linesOfCode then
    [{ criterion := "Technical Complexity",
       score := min ((m.technologies.getD []).length * 10 : ℚ) 50 +
                min (m.linesOfCode.getD 0 / 100) 50,
       maxScore := 100, judge := none, feedback := none, timestamp := now }]
   else []) ++
  (if numTruthy m.completeness then
    [{ criterion := "Completeness", score := m.completeness.getD 0 * 10,
       maxScore := 100, judge := none, feedback := none, timestamp := now }]
   else []) ++
  (if numTruthy m.documentation then
    [{ criterion := "Documentation", score := m.documentation.getD 0 * 10,
       maxScore := 100, judge := none, feedback := none, timestamp := now }]
   else []) ++
  (if numTruthy m.presentation then
    [{ criterion := "Presentation", score := m.presentation.getD 0 * 10,
       maxScore := 100, judge := none, feedback := none, timestamp := now }]
   else [])

/-- the metadata block Mongoose materializes for a document on which no
metadata value was ever set: every numeric path is undefined and the
`technologies` array carries its implicit empty-array default (which is
truthy in JavaScript). -/
def emptyMetadata : SubmissionMetadata :=
  { linesOfCode := none
    commits := none
    contributors := none
    technologies := some []
    innovation := none
    completeness := none
    documentation := none
    presentation := none }

/-- the `autoJudge` method (Submission.js lines 126-187).  The guard
`if (!this.metadata) return;` is dead code: `metadata` is a Mongoose
nested path, so the loaded document always materializes it as an object
(with `technologies` defaulting to `[]`), which is truthy.  The method
therefore always proceeds: it overwrites the judge score list with the
per-metric records (the empty list when no metadata value is set, since
every per-metric guard is then falsy), sets `judging.status` to judged
and saves (running the pre-save hook).  The Except wrapper records the
absence of any thrown error: the source signals none. -/
def autoJudge (s : Submission) (now : Nat) : Except String Submission :=
  Except.ok (preSaveHook
    { s with judging :=
      { s.judging with
          scores := autoJudgeScores (s.metadata.getD emptyMetadata) now
          status := JudgingStatus.judged } })

/-- in-place update of the first vote whose `user` matches, as performed on
the record returned by `votes.find` in the vote route. -/
def updateFirstVote (u : Nat) (sc : ℚ) (now : Nat) : List Vote → List Vote
  | [] => []
  | v :: rest =>
      if v.user = u then { v with score := sc, timestamp := now } :: rest
      else v :: updateFirstVote u sc now rest

/-- the vote route, POST /:id/vote (submissions router lines 834-883):
range guard, voting-window guard, then update the existing vote of the
user in place or push a new one, and save. -/
def voteOnSubmission (s : Submission) (eventStatus : EventStatus)
    (u : Nat) (sc : ℚ) (now : Nat) : Except String Submission :=
  if sc < 1 ∨ sc > 5 then
    Except.error "Score must be between 1 and 5"
  else if eventStatus ≠ EventStatus.judging ∧ eventStatus ≠ EventStatus.completed then
    Except.error "Voting is not open for this event"
  else
    let votes :=
      if s.voting.votes.any (fun v => v.user = u) then
        updateFirstVote u sc now s.voting.votes
      else
        s.voting.votes ++ [{ user := u, score := sc, timestamp := now }]
    Except.ok (preSaveHook { s with voting := { s.voting with votes := votes } })

/-- raw score data in the body of a judge request. -/
structure ScoreInput where
  criterion : String
  score : ℚ
  maxScore : Option ℚ
  feedback : Option String
deriving DecidableEq, Repr

/-- the record pushed for one score input by the judge route;
`scoreData.maxScore || 100` maps both absence and zero to 100. -/
def mkJudgeRecord (u : Nat) (now : Nat) (d : ScoreInput) : ScoreRecord :=
  { criterion := d.criterion
    score := d.score
    maxScore := match d.maxScore with
      | none => 100
      | some v => if v = 0 then 100 else v
    judge := some u
    feedback := d.feedback
    timestamp := now }

/-- the judge route, POST /:id/judge (submissions router lines 886-946):
authorization guard, then the prior records of the acting judge are
filtered out and the new set pushed, status set to judged, and the
document saved.  The filter callback evaluates `score.judge.toString()`,
which throws when a stored record has no judge (auto-judged records);
that request then fails without saving, modelled by the second guard. -/
def judgeSubmission (s : Submission) (eventJudges : List Nat) (organizer : Nat)
    (u : Nat) (scores : List ScoreInput) (now : Nat) : Except String Submission :=
  if ¬ (u ∈ eventJudges ∨ organizer = u) then
    Except.error "Not authorized to judge this submission"
  else if s.judging.scores.any (fun r => r.judge = none) then
    Except.error "TypeError: cannot read toString of undefined judge"
  else
    let kept := s.judging.scores.filter (fun r => ¬ r.judge = some u)
    let added := scores.map (mkJudgeRecord u now)
    Except.ok (preSaveHook
      { s with judging :=
        { s.judging with scores := kept ++ added, status := JudgingStatus.judged } })

/-- descending comparison on the `totalScore` field of leaderboard entries:
`leAfter a b` holds when a may stand before b, matching the comparator
`(a, b) => b.totalScore - a.totalScore`. -/
def leAfter (a b : LBEntry) : Prop := b.totalScore ≤ a.totalScore

instance : DecidableRel leAfter := fun a b =>
  inferInstanceAs (Decidable (b.totalScore ≤ a.totalScore))

instance : IsTotal LBEntry leAfter :=
  ⟨fun a b => le_total b.totalScore a.totalScore⟩

instance : IsTrans LBEntry leAfter :=
  ⟨fun _ _ _ h1 h2 => le_trans h2 h1⟩

/-- the stable engine sort with the descending-score comparator. -/
def sortByScoreDesc (l : List LBEntry) : List LBEntry :=
  l.insertionSort leAfter

/-- the rank pass `forEach((entry, index) => entry.rank = index + 1)`,
started at index i. -/
def assignRanksFrom (i : Nat) : List LBEntry → List LBEntry
  | [] => []
  | e :: rest => { e with rank := i + 1 } :: assignRanksFrom (i + 1) rest

/-- rank assignment over the whole list (index starts at 0). -/
def assignRanks (l : List LBEntry) : List LBEntry :=
  assignRanksFrom 0 l

/-- eligibility test of the mutation-triggered rebuild:
`submission.status === submitted && submission.judging.totalScore > 0`. -/
def eligibleLB (s : Submission) : Bool :=
  s.status = SubStatus.submitted && s.judging.totalScore > 0

/-- combined ranking score, `judging.totalScore + voting.publicVotes * 10`. -/
def combinedScore (s : Submission) : ℚ :=
  s.judging.totalScore + s.voting.publicVotes * 10

/-- the leaderboard entry pushed for one eligible submission by
`updateEventLeaderboard`. -/
def mkLBEntry (now : Nat) (s : Submission) : LBEntry :=
  { team := s.team
    submission := s.id
    totalScore := combinedScore s
    scores := s.judging.scores
    rank := 0
    updatedAt := now }

/-- the helper `updateEventLeaderboard` (submissions router lines
1137-1172): collect one entry per submitted submission with positive
judge total, sort descending by combined score, assign dense ranks, and
replace the event leaderboard wholesale. -/
def updateEventLeaderboard (ev : Event) (now : Nat) : Event :=
  let lb := (ev.submissions.filter eligibleLB).map (mkLBEntry now)
  { ev with leaderboard := assignRanks (sortByScoreDesc lb) }

/-- the leaderboard entry pushed for every submission by the organizer
route; its totalScore is the judge total alone (`|| 0` is the identity
here since the schema defaults the field to 0). -/
def mkOrgLBEntry (now : Nat) (s : Submission) : LBEntry :=
  { team := s.team
    submission := s.id
    totalScore := s.judging.totalScore
    scores := s.judging.scores
    rank := 0
    updatedAt := now }

/-- the organizer route POST /:id/update-leaderboard (events.js lines
222-273): after the authorization guard it auto-judges every submission
still pending, pushes one entry per submission of the event with the
judge total as score, sorts, ranks, and persists. -/
def updateLeaderboardRoute (ev : Event) (u : Nat) (now : Nat) : Except String Event :=
  if ¬ ev.organizer = u then
    Except.error "Not authorized"
  else
    let subs := ev.submissions.map (fun s =>
      if s.judging.status = JudgingStatus.pending then
        match autoJudge s now with
        | Except.ok s1 => s1
        | Except.error _ => s
      else s)
    let lb := subs.map (mkOrgLBEntry now)
    Except.ok { ev with
      submissions := subs
      leaderboard := assignRanks (sortByScoreDesc lb) }

/-- an Event document as materialized by a query with a field
projection: each path is present only when the query selected it, and
Mongoose leaves projected-out paths undefined (array defaults are not
applied to them). -/
structure ProjectedEvent where
  leaderboard : Option (List LBEntry)
  participants : Option (List Nat)
  teams : Option (List Nat)
  submissions : Option (List Nat)
deriving DecidableEq, Repr

/-- loading an event with `select('leaderboard title')` (events.js lines
186-198): only the leaderboard (and title) paths are materialized; the
participants, teams and submissions paths are left undefined. -/
def loadLeaderboardProjection (ev : Event) : ProjectedEvent :=
  { leaderboard := some ev.leaderboard
    participants := none
    teams := none
    submissions := none }

/-- the Event pre-save stats hook (Event.js lines 114-119) run on a
loaded document: it reads `participants.length`, `teams.length` and
`submissions.length`, so it throws a TypeError when any of those paths
was projected out of the query that loaded the document. -/
def eventStatsHook (d : ProjectedEvent) : Except String (Nat × Nat × Nat) :=
  match d.participants, d.teams, d.submissions with
  | some p, some t, some su => Except.ok (p.length, t.length, su.length)
  | _, _, _ => Except.error "TypeError: cannot read length of undefined"

/-- saving a loaded event document over the stored event: the pre-save
stats hook runs first and an error thrown there rejects the save, so the
stored event is only replaced when the hook succeeds. -/
def saveProjectedEvent (stored : Event) (d : ProjectedEvent) : Except String Event :=
  match eventStatsHook d with
  | Except.error e => Except.error e
  | Except.ok _ => Except.ok { stored with leaderboard := d.leaderboard.getD stored.leaderboard }

/-- the leaderboard GET route (events.js lines 184-219): the event is
loaded with only its leaderboard and title selected, the handler sorts
the in-memory leaderboard and reassigns the ranks, and then awaits
`event.save()` before responding.  That save always rejects — the Event
pre-save stats hook reads the projected-out participants, teams and
submissions paths — so control reaches the catch block, the route
answers a 500 error, and the stored event is returned unchanged. -/
def getLeaderboardRoute (ev : Event) : Event × Except String (List LBEntry) :=
  let d := loadLeaderboardProjection ev
  let lb := assignRanks (sortByScoreDesc (d.leaderboard.getD []))
  match saveProjectedEvent ev { d with leaderboard := some lb } with
  | Except.error _ => (ev, Except.error "Server error")
  | Except.ok ev1 => (ev1, Except.ok lb)

/-- dense 1-based rank check starting at index i. -/
def ranksFrom (i : Nat) : List LBEntry → Bool
  | [] => true
  | e :: rest => e.rank = i + 1 && ranksFrom (i + 1) rest

/-- projection of a score record that forgets the timestamp field. -/
def stripTimestamp (r : ScoreRecord) : String × ℚ × ℚ × Option Nat × Option String :=
  (r.criterion, r.score, r.maxScore, r.judge, r.feedback)

/-- the metadata block of the spec scenario for automated judging. -/
def mEx : SubmissionMetadata :=
  { linesOfCode := some 300
    commits := none
    contributors := none
    technologies := some ["a", "b", "c"]
    innovation := some 8
    completeness := some 9
    documentation := some 5
    presentation := some 7 }

/-- a metadata block carrying only an innovation rating. -/
def mOnlyInn : SubmissionMetadata :=
  { linesOfCode := none
    commits := none
    contributors := none
    technologies := none
    innovation := some 8
    completeness := none
    documentation := none
    presentation := none }

/-- a stale score record left by an earlier judging round. -/
def rOld : ScoreRecord :=
  { criterion := "Old", score := 5, maxScore := 100, judge := some 9, feedback := none, timestamp := 0 }

/-- a submission carrying the scenario metadata and one stale record. -/
def sEx4 : Submission :=
  { id := 4
    team := 4
    metadata := some mEx
    judging := { scores := [rOld], totalScore := 5, averageScore := 5, status := JudgingStatus.pending }
    voting := { publicVotes := 0, votes := [] }
    status := SubStatus.submitted }

/-- a judge record worth 80 points from judge 1. -/
def r80 : ScoreRecord :=
  { criterion := "A", score := 80, maxScore := 100, judge := some 1, feedback := none, timestamp := 0 }

/-- a judge record worth 60 points from judge 2. -/
def r60 : ScoreRecord :=
  { criterion := "B", score := 60, maxScore := 100, judge := some 2, feedback := none, timestamp := 0 }

/-- the spec aggregation scenario: scores 80 and 60, votes 4 and 5. -/
def sAgg : Submission :=
  { id := 1
    team := 1
    metadata := none
    judging := { scores := [r80, r60], totalScore := 0, averageScore := 0, status := JudgingStatus.judged }
    voting := { publicVotes := 0, votes := [⟨1, 4, 0⟩, ⟨2, 5, 0⟩] }
    status := SubStatus.submitted }

/-- a submission already holding one 80-point record of judge 1, with the
aggregates the pre-save hook derived from it. -/
def sC2 : Submission :=
  { id := 1
    team := 1
    metadata := none
    judging := { scores := [r80], totalScore := 80, averageScore := 80, status := JudgingStatus.judged }
    voting := { publicVotes := 0, votes := [] }
    status := SubStatus.submitted }

/-- a submission with no metadata at all. -/
def sC8 : Submission :=
  { id := 2
    team := 2
    metadata := none
    judging := { scores := [], totalScore := 0, averageScore := 0, status := JudgingStatus.pending }
    voting := { publicVotes := 0, votes := [] }
    status := SubStatus.submitted }

/-- the submission sC8 after autoJudge: zero score records, status
judged, everything else untouched. -/
def sC8judged : Submission :=
  { id := 2
    team := 2
    metadata := none
    judging := { scores := [], totalScore := 0, averageScore := 0, status := JudgingStatus.judged }
    voting := { publicVotes := 0, votes := [] }
    status := SubStatus.submitted }

/-- a submission with an existing vote of user 1. -/
def sV : Submission :=
  { id := 5
    team := 5
    metadata := none
    judging := { scores := [], totalScore := 0, averageScore := 0, status := JudgingStatus.pending }
    voting := { publicVotes := 3, votes := [⟨1, 3, 0⟩] }
    status := SubStatus.submitted }

/-- the submission sV after user 1 re-votes with score 5 at time 7. -/
def sVafter : Submission :=
  { id := 5
    team := 5
    metadata := none
    judging := { scores := [], totalScore := 0, averageScore := 0, status := JudgingStatus.pending }
    voting := { publicVotes := 5, votes := [⟨1, 5, 7⟩] }
    status := SubStatus.submitted }

/-- a submission holding records of judges 1 and 2. -/
def sJ : Submission :=
  { id := 6
    team := 6
    metadata := none
    judging := { scores := [r80, r60], totalScore := 140, averageScore := 70, status := JudgingStatus.judged }
    voting := { publicVotes := 0, votes := [] }
    status := SubStatus.submitted }

/-- the score set judge 1 re-submits for sJ. -/
def inJ : ScoreInput :=
  { criterion := "A", score := 90, maxScore := none, feedback := none }

/-- the submission sJ after judge 1 re-submits [inJ] at time 9. -/
def sJafter : Submission :=
  { id := 6
    team := 6
    metadata := none
    judging := { scores := [r60, mkJudgeRecord 1 9 inJ], totalScore := 150, averageScore := 75,
                 status := JudgingStatus.judged }
    voting := { publicVotes := 0, votes := [] }
    status := SubStatus.submitted }

/-- a submitted submission with votes but a zero judge total. -/
def sC3 : Submission :=
  { id := 7
    team := 7
    metadata := none
    judging := { scores := [], totalScore := 0, averageScore := 0, status := JudgingStatus.pending }
    voting := { publicVotes := 3, votes := [⟨1, 3, 0⟩] }
    status := SubStatus.submitted }

/-- an event whose only submission is sC3. -/
def evC3 : Event :=
  { organizer := 1
    status := EventStatus.judging
    isAutomated := true
    judges := []
    submissions := [sC3]
    leaderboard := [] }

/-- a draft submission already judged at 50 points, with no votes. -/
def sC10 : Submission :=
  { id := 3
    team := 3
    metadata := none
    judging := { scores := [⟨"A", 50, 100, some 9, none, 0⟩], totalScore := 50, averageScore := 50,
                 status := JudgingStatus.judged }
    voting := { publicVotes := 0, votes := [] }
    status := SubStatus.draft }

/-- an event whose only submission is the draft sC10. -/
def evC10 : Event :=
  { organizer := 1
    status := EventStatus.judging
    isAutomated := true
    judges := []
    submissions := [sC10]
    leaderboard := [] }

/-- a submitted, judged submission with positive total and no votes. -/
def sW10 : Submission :=
  { id := 8
    team := 8
    metadata := none
    judging := { scores := [⟨"A", 50, 100, some 9, none, 0⟩], totalScore := 50, averageScore := 50,
                 status := JudgingStatus.judged }
    voting := { publicVotes := 0, votes := [] }
    status := SubStatus.submitted }

/-- an event whose only submission is sW10. -/
def evW10 : Event :=
  { organizer := 1
    status := EventStatus.judging
    isAutomated := true
    judges := []
    submissions := [sW10]
    leaderboard := [] }

/-- an event with a non-empty stored leaderboard, participants, teams
and submissions. -/
def evR : Event :=
  { organizer := 1
    status := EventStatus.judging
    isAutomated := true
    judges := []
    submissions := [sW10]
    leaderboard := [⟨1, 1, 10, [], 1, 0⟩, ⟨2, 2, 50, [], 2, 0⟩] }

lemma applyJudgingAgg_scores (s : Submission) :
    (applyJudgingAgg s).judging.scores = s.judging.scores := by
  unfold applyJudgingAgg
  split <;> rfl

lemma applyJudgingAgg_judging_status (s : Submission) :
    (applyJudgingAgg s).judging.status = s.judging.status := by
  unfold applyJudgingAgg
  split <;> rfl

lemma applyJudgingAgg_voting (s : Submission) :
    (applyJudgingAgg s).voting = s.voting := by
  unfold applyJudgingAgg
  split <;> rfl

lemma applyVotingAgg_judging (s : Submission) :
    (applyVotingAgg s).judging = s.judging := by
  unfold applyVotingAgg
  split <;> rfl

lemma applyVotingAgg_votes (s : Submission) :
    (applyVotingAgg s).voting.votes = s.voting.votes := by
  unfold applyVotingAgg
  split <;> rfl

lemma preSaveHook_scores (s : Submission) :
    (preSaveHook s).judging.scores = s.judging.scores := by
  unfold preSaveHook
  rw [applyVotingAgg_judging, applyJudgingAgg_scores]

lemma preSaveHook_judging_status (s : Submission) :
    (preSaveHook s).judging.status = s.judging.status := by
  unfold preSaveHook
  rw [applyVotingAgg_judging, applyJudgingAgg_judging_status]

lemma preSaveHook_votes (s : Submission) :
    (preSaveHook s).voting.votes = s.voting.votes := by
  unfold preSaveHook
  rw [applyVotingAgg_votes, applyJudgingAgg_voting]

lemma foldl_add_score (l : List ScoreRecord) (a : ℚ) :
    l.foldl (fun sum r => sum + r.score) a = a + (l.map (fun r => r.score)).sum := by
  induction l generalizing a with
  | nil => simp
  | cons r t ih => simp [ih, add_assoc]

lemma scoreSum_eq_map_sum (l : List ScoreRecord) :
    scoreSum l = (l.map (fun r => r.score)).sum := by
  simp [scoreSum, foldl_add_score]

lemma preSaveHook_totalScore (s : Submission) :
    (preSaveHook s).judging.totalScore =
      (if s.judging.scores.isEmpty then s.judging.totalScore
       else (s.judging.scores.map (fun r => r.score)).sum) := by
  unfold preSaveHook
  rw [applyVotingAgg_judging]
  unfold applyJudgingAgg
  rcases h : s.judging.scores with _ | ⟨r, t⟩ <;>
    simp [h, scoreSum_eq_map_sum]

lemma preSaveHook_averageScore (s : Submission) :
    (preSaveHook s).judging.averageScore =
      (if s.judging.scores.isEmpty then s.judging.averageScore
       else (s.judging.scores.map (fun r => r.score)).sum / (s.judging.scores.length : ℚ)) := by
  unfold preSaveHook
  rw [applyVotingAgg_judging]
  unfold applyJudgingAgg
  rcases h : s.judging.scores with _ | ⟨r, t⟩ <;>
    simp [h, scoreSum_eq_map_sum]

/-- C2 (amended).  After any save, when the judge score list is non-empty,
`judging.totalScore` is the plain sum of the score fields (not divided by
the judge count) and `judging.averageScore` is that sum divided by the
record count; when the score list is empty the hook skips the computation
and both fields keep their previously stored values (0 for a never-scored
submission only by schema default).  On the spec scenario (scores 80 and
60, votes 4 and 5) the saved totals are 140 and 9/2. -/
theorem preSaveHook_aggregation (s : Submission) :
    (preSaveHook s).judging.scores = s.judging.scores
    ∧ (preSaveHook s).judging.totalScore =
        (if s.judging.scores.isEmpty then s.judging.totalScore
         else (s.judging.scores.map (fun r => r.score)).sum)
    ∧ (preSaveHook s).judging.averageScore =
        (if s.judging.scores.isEmpty then s.judging.averageScore
         else (s.judging.scores.map (fun r => r.score)).sum / (s.judging.scores.length : ℚ))
    ∧ (preSaveHook sAgg).judging.totalScore = 140
    ∧ (preSaveHook sAgg).voting.publicVotes = 9 / 2 := by
  refine ⟨preSaveHook_scores s, preSaveHook_totalScore s, preSaveHook_averageScore s, ?_, ?_⟩
  · norm_num [preSaveHook, applyJudgingAgg, applyVotingAgg, sAgg, r80, r60, scoreSum]
  · norm_num [preSaveHook, applyJudgingAgg, applyVotingAgg, sAgg, r80, r60, scoreSum, voteSum]

/-- C2 counterexample.  A judge who already holds the only score record
re-submits an empty score set: the saved submission has an empty score
list, yet `judging.totalScore` keeps its stale value 80 instead of the
claimed 0. -/
theorem judgeSubmission_stale_total :
    (judgeSubmission sC2 [1] 1 1 [] 5).toOption.map
      (fun s => (s.judging.scores.length, s.judging.totalScore)) = some (0, 80) := rfl

/-- C4.  With metadata present, `autoJudge` overwrites the judge score
list with exactly the per-metric records of `autoJudgeScores` and sets
`judging.status` to judged; on the spec scenario metadata the produced
scores are 80, 33, 90, 50, 70 (each out of 100), and absent metrics
produce no record (a metadata block with only an innovation rating yields
only the Innovation record). -/
theorem autoJudge_per_metric (s : Submission) (m : SubmissionMetadata) (now : Nat)
    (h : s.metadata = some m) :
    (autoJudge s now).toOption.map (fun t => (t.judging.scores, t.judging.status))
      = some (autoJudgeScores m now, JudgingStatus.judged)
    ∧ (autoJudgeScores mEx now).map (fun r => (r.criterion, r.score, r.maxScore))
      = [("Innovation", 80, 100), ("Technical Complexity", 33, 100), ("Completeness", 90, 100),
         ("Documentation", 50, 100), ("Presentation", 70, 100)]
    ∧ (autoJudgeScores mOnlyInn now).map (fun r => r.criterion) = ["Innovation"] := by
  refine ⟨?_, ?_, ?_⟩
  · simp [autoJudge, h, Except.toOption, preSaveHook_scores, preSaveHook_judging_status]
  · norm_num [autoJudgeScores, mEx, numTruthy]
  · norm_num [autoJudgeScores, mOnlyInn, numTruthy]

/-- C4 witness: the scenario applied to a concrete submission carrying the
scenario metadata. -/
theorem autoJudge_per_metric_w :
    (autoJudge sEx4 11).toOption.map (fun t => (t.judging.scores, t.judging.status))
      = some (autoJudgeScores mEx 11, JudgingStatus.judged) :=
  (autoJudge_per_metric sEx4 mEx 11 rfl).1

/-- C5 counterexample: two invocations of the auto-judge scoring on the
same metadata at different times differ, because every record carries the
invocation time in its timestamp field. -/
theorem autoJudgeScores_time_dependent :
    autoJudgeScores mEx 0 ≠ autoJudgeScores mEx 1 := by
  norm_num [autoJudgeScores, mEx, numTruthy]

/-- C5 (amended): up to the timestamp field, the auto-judge scoring is a
pure function of the metadata — two invocations at any two times agree on
criterion, score, maxScore, judge and feedback of every record. -/
theorem autoJudgeScores_time_invariant (m : SubmissionMetadata) (t1 t2 : Nat) :
    (autoJudgeScores m t1).map stripTimestamp = (autoJudgeScores m t2).map stripTimestamp := by
  cases h1 : numTruthy m.innovation <;>
    cases h2 : m.technologies.isSome && numTruthy m.linesOfCode <;>
      cases h3 : numTruthy m.completeness <;>
        cases h4 : numTruthy m.documentation <;>
          cases h5 : numTruthy m.presentation <;>
            simp [autoJudgeScores, h1, h2, h3, h4, h5, stripTimestamp]

lemma autoJudgeScores_empty (now : Nat) : autoJudgeScores emptyMetadata now = [] := rfl

/-- C8 counterexample: on a submission with no metadata values set,
autoJudge fails with no error of any kind — it completes silently,
returning ok after judging the submission with zero score records and
marking it judged; the `!this.metadata` guard never fires because the
Mongoose document always materializes the nested metadata path. -/
theorem autoJudge_silent_no_metadata :
    autoJudge sC8 0 = Except.ok sC8judged
    ∧ sC8judged.judging.scores = []
    ∧ sC8judged.judging.status = JudgingStatus.judged := ⟨rfl, rfl, rfl⟩

/-- C8 (amended): when the metadata block carries no values at all,
autoJudge completes silently without raising any error: every per-metric
guard is falsy, so it overwrites the score list with the empty record
set, sets judging.status to judged and saves; the save keeps the
previous aggregate total because the hook skips empty lists.  No
ValidationError or NoMetadataError exists in the code. -/
theorem autoJudge_empty_metadata_judges (s : Submission) (now : Nat)
    (h : s.metadata = none) :
    (autoJudge s now).toOption.map
      (fun t => (t.judging.scores, t.judging.status, t.judging.totalScore))
      = some ([], JudgingStatus.judged, s.judging.totalScore) := by
  simp [autoJudge, h, autoJudgeScores_empty, Except.toOption,
    preSaveHook_scores, preSaveHook_judging_status, preSaveHook_totalScore]

/-- C8 witness. -/
theorem autoJudge_empty_metadata_judges_w :
    (autoJudge sC8 3).toOption.map
      (fun t => (t.judging.scores, t.judging.status, t.judging.totalScore))
      = some ([], JudgingStatus.judged, sC8.judging.totalScore) :=
  autoJudge_empty_metadata_judges sC8 3 rfl

lemma updateFirstVote_eq_map (u : Nat) (sc : ℚ) (now : Nat) (l : List Vote)
    (hnd : (l.map (fun v => v.user)).Nodup) :
    updateFirstVote u sc now l =
      l.map (fun v => if v.user = u then { v with score := sc, timestamp := now } else v) := by
  induction l with
  | nil => rfl
  | cons v t ih =>
    rw [List.map_cons, List.nodup_cons] at hnd
    unfold updateFirstVote
    by_cases h : v.user = u
    · have ht : ∀ w ∈ t, (if w.user = u then
          ({ w with score := sc, timestamp := now } : Vote) else w) = w := by
        intro w hw
        have hwu : w.user ≠ u := by
          intro he
          have hin : v.user ∈ List.map (fun v => v.user) t := by
            rw [h, ← he]
            exact List.mem_map_of_mem (fun v => v.user) hw
          exact hnd.1 hin
        simp [hwu]
      simp [h, List.map_congr_left ht]
    · simp [h, ih hnd.2]

lemma vote_user_after_update (u : Nat) (sc : ℚ) (now : Nat) (v : Vote) :
    (if v.user = u then ({ v with score := sc, timestamp := now } : Vote) else v).user
      = v.user := by
  split <;> rfl

/-- C6.  Casting a vote on a submission whose vote list has unique user
keys keeps the keys unique; when the user already has a vote, the vote
list keeps exactly the same users in the same order and the same length
(nothing is appended), with the matching record overwritten in place with
the new score and timestamp. -/
theorem voteOnSubmission_upsert (s : Submission) (es : EventStatus) (u : Nat) (sc : ℚ)
    (now : Nat) (s1 : Submission)
    (h : voteOnSubmission s es u sc now = Except.ok s1)
    (hnd : (s.voting.votes.map (fun v => v.user)).Nodup) :
    (s1.voting.votes.map (fun v => v.user)).Nodup
    ∧ s1.voting.votes.length =
        (if s.voting.votes.any (fun v => v.user = u) then s.voting.votes.length
         else s.voting.votes.length + 1)
    ∧ (s.voting.votes.any (fun v => v.user = u) = true →
        s1.voting.votes = s.voting.votes.map
          (fun v => if v.user = u then { v with score := sc, timestamp := now } else v)) := by
  unfold voteOnSubmission at h
  split at h
  · exact absurd h (by simp)
  split at h
  · exact absurd h (by simp)
  rw [Except.ok.injEq] at h
  subst h
  rw [preSaveHook_votes]
  dsimp only
  by_cases hany : (s.voting.votes.any fun v => decide (v.user = u)) = true
  · rw [if_pos hany, updateFirstVote_eq_map u sc now s.voting.votes hnd]
    refine ⟨?_, ?_, ?_⟩
    · rw [List.map_map]
      have hcomp : ((fun v => v.user) ∘ fun v =>
          if v.user = u then ({ v with score := sc, timestamp := now } : Vote) else v)
          = fun v => v.user := by
        funext v
        exact vote_user_after_update u sc now v
      rw [hcomp]
      exact hnd
    · rw [if_pos hany, List.length_map]
    · intro _
      rfl
  · rw [if_neg hany]
    refine ⟨?_, ?_, ?_⟩
    · rw [List.map_append, List.nodup_append]
      refine ⟨hnd, by simp, ?_⟩
      intro a ha hb
      simp only [List.map_cons, List.map_nil, List.mem_singleton] at hb
      rcases List.mem_map.mp ha with ⟨v, hv, hvu⟩
      have hne : ¬ (v.user = u) := by
        have h2 := List.any_eq_false.mp (Bool.eq_false_iff.mpr hany) v hv
        simpa using h2
      exact hne (hvu.trans hb)
    · rw [if_neg hany]
      simp
    · intro hc
      exact absurd hc hany

/-- C6 witness: user 1 re-votes 5 at time 7 on a submission where user 1
already voted 3. -/
theorem voteOnSubmission_upsert_w :
    (sVafter.voting.votes.map (fun v => v.user)).Nodup
    ∧ sVafter.voting.votes.length =
        (if sV.voting.votes.any (fun v => v.user = 1) then sV.voting.votes.length
         else sV.voting.votes.length + 1)
    ∧ (sV.voting.votes.any (fun v => v.user = 1) = true →
        sVafter.voting.votes = sV.voting.votes.map
          (fun v => if v.user = 1 then { v with score := 5, timestamp := 7 } else v)) := by
  have h : voteOnSubmission sV EventStatus.judging 1 5 7 = Except.ok sVafter := by
    norm_num [voteOnSubmission, sV, sVafter, preSaveHook, applyJudgingAgg, applyVotingAgg,
      updateFirstVote, voteSum]
  exact voteOnSubmission_upsert sV EventStatus.judging 1 5 7 sVafter h (by decide)

/-- C7.  A successful judge submission leaves the acting judge with
exactly the newly submitted record set (their prior records are removed,
none duplicated), keeps the records of all other judges unchanged and in
order, and the resulting list length is the kept records plus the new
ones. -/
theorem judgeSubmission_replaces (s : Submission) (js : List Nat) (org u : Nat)
    (inputs : List ScoreInput) (now : Nat) (s1 : Submission)
    (h : judgeSubmission s js org u inputs now = Except.ok s1) :
    s1.judging.scores.filter (fun r => r.judge = some u) = inputs.map (mkJudgeRecord u now)
    ∧ s1.judging.scores.filter (fun r => ¬ r.judge = some u)
        = s.judging.scores.filter (fun r => ¬ r.judge = some u)
    ∧ s1.judging.scores.length =
        (s.judging.scores.filter (fun r => ¬ r.judge = some u)).length + inputs.length := by
  unfold judgeSubmission at h
  split at h
  · exact absurd h (by simp)
  split at h
  · exact absurd h (by simp)
  rw [Except.ok.injEq] at h
  subst h
  rw [preSaveHook_scores]
  dsimp only
  have hkept : ∀ r ∈ s.judging.scores.filter (fun r => ¬ r.judge = some u),
      ¬ (r.judge = some u) := by
    intro r hr
    have := List.of_mem_filter hr
    simpa using this
  have hadded : ∀ r ∈ inputs.map (mkJudgeRecord u now), r.judge = some u := by
    intro r hr
    rcases List.mem_map.mp hr with ⟨d, _, hd⟩
    rw [← hd]
    rfl
  refine ⟨?_, ?_, ?_⟩
  · rw [List.filter_append]
    have h1 : (s.judging.scores.filter (fun r => ¬ r.judge = some u)).filter
        (fun r => r.judge = some u) = [] := by
      rw [List.filter_eq_nil_iff]
      intro r hr
      simpa using hkept r hr
    have h2 : (inputs.map (mkJudgeRecord u now)).filter (fun r => r.judge = some u)
        = inputs.map (mkJudgeRecord u now) := by
      rw [List.filter_eq_self]
      intro r hr
      simpa using hadded r hr
    rw [h1, h2, List.nil_append]
  · rw [List.filter_append]
    have h1 : (s.judging.scores.filter (fun r => ¬ r.judge = some u)).filter
        (fun r => ¬ r.judge = some u) = s.judging.scores.filter (fun r => ¬ r.judge = some u) := by
      rw [List.filter_eq_self]
      intro r hr
      simpa using hkept r hr
    have h2 : (inputs.map (mkJudgeRecord u now)).filter (fun r => ¬ r.judge = some u) = [] := by
      rw [List.filter_eq_nil_iff]
      intro r hr
      simpa using hadded r hr
    rw [h1, h2, List.append_nil]
  · rw [List.length_append, List.length_map]

/-- C7 witness: judge 1 re-submits a single 90-point record on a
submission holding records of judges 1 and 2. -/
theorem judgeSubmission_replaces_w :
    sJafter.judging.scores.filter (fun r => r.judge = some 1) = [inJ].map (mkJudgeRecord 1 9)
    ∧ sJafter.judging.scores.filter (fun r => ¬ r.judge = some 1)
        = sJ.judging.scores.filter (fun r => ¬ r.judge = some 1)
    ∧ sJafter.judging.scores.length =
        (sJ.judging.scores.filter (fun r => ¬ r.judge = some 1)).length + [inJ].length := by
  have h : judgeSubmission sJ [1, 2] 0 1 [inJ] 9 = Except.ok sJafter := by
    norm_num [judgeSubmission, sJ, sJafter, r80, r60, inJ, mkJudgeRecord,
      preSaveHook, applyJudgingAgg, applyVotingAgg, scoreSum]
    intro hc
    simp at hc
  exact judgeSubmission_replaces sJ [1, 2] 0 1 [inJ] 9 sJafter h

lemma pairwise_leAfter_filter_key (l : List LBEntry) (q : ℚ) :
    (l.filter (fun e => e.totalScore = q)).Pairwise leAfter := by
  apply List.pairwise_of_forall_mem_list
  intro a ha b hb
  have ha2 : a.totalScore = q := by simpa using List.of_mem_filter ha
  have hb2 : b.totalScore = q := by simpa using List.of_mem_filter hb
  unfold leAfter
  rw [ha2, hb2]

lemma sortByScoreDesc_filter_key (l : List LBEntry) (q : ℚ) :
    (sortByScoreDesc l).filter (fun e => e.totalScore = q)
      = l.filter (fun e => e.totalScore = q) := by
  unfold sortByScoreDesc
  have hsub : (l.filter (fun e => e.totalScore = q)).Sublist (List.insertionSort leAfter l) :=
    List.sublist_insertionSort (pairwise_leAfter_filter_key l q) (List.filter_sublist l)
  have hsub2 := List.Sublist.filter (fun e => decide (e.totalScore = q)) hsub
  have hself : (l.filter (fun e => e.totalScore = q)).filter (fun e => e.totalScore = q)
      = l.filter (fun e => e.totalScore = q) := by
    rw [List.filter_eq_self]
    intro a ha
    exact (List.mem_filter.mp ha).2
  rw [hself] at hsub2
  have hlen : ((List.insertionSort leAfter l).filter (fun e => e.totalScore = q)).length
      = (l.filter (fun e => e.totalScore = q)).length :=
    ((List.perm_insertionSort leAfter l).filter (fun e => decide (e.totalScore = q))).length_eq
  exact (hsub2.eq_of_length hlen.symm).symm

lemma assignRanksFrom_totalScore_mem (x : LBEntry) (i : Nat) (l : List LBEntry) :
    x ∈ assignRanksFrom i l → ∃ y ∈ l, x.totalScore = y.totalScore := by
  induction l generalizing i with
  | nil => intro hx; cases hx
  | cons a t ih =>
    intro hx
    rcases List.mem_cons.mp hx with h | h
    · exact ⟨a, List.mem_cons_self a t, by rw [h]⟩
    · rcases ih (i + 1) h with ⟨y, hy, he⟩
      exact ⟨y, List.mem_cons_of_mem a hy, he⟩

lemma sorted_assignRanksFrom (i : Nat) (l : List LBEntry) (h : l.Pairwise leAfter) :
    (assignRanksFrom i l).Pairwise leAfter := by
  induction l generalizing i with
  | nil => exact List.Pairwise.nil
  | cons a t ih =>
    rw [List.pairwise_cons] at h
    unfold assignRanksFrom
    rw [List.pairwise_cons]
    refine ⟨?_, ih (i + 1) h.2⟩
    intro x hx
    rcases assignRanksFrom_totalScore_mem x (i + 1) t hx with ⟨y, hy, he⟩
    have hr := h.1 y hy
    unfold leAfter at hr ⊢
    rw [he]
    exact hr

lemma filter_key_assignRanksFrom (i : Nat) (l : List LBEntry) (q : ℚ) :
    ((assignRanksFrom i l).filter (fun e => e.totalScore = q)).map (fun e => e.submission)
      = (l.filter (fun e => e.totalScore = q)).map (fun e => e.submission) := by
  induction l generalizing i with
  | nil => rfl
  | cons a t ih =>
    by_cases hq : a.totalScore = q <;>
      simp [assignRanksFrom, List.filter_cons, hq, ih (i + 1)]

lemma map_submission_assignRanksFrom (i : Nat) (l : List LBEntry) :
    (assignRanksFrom i l).map (fun e => e.submission) = l.map (fun e => e.submission) := by
  induction l generalizing i with
  | nil => rfl
  | cons a t ih => simp [assignRanksFrom, ih (i + 1)]

lemma ranksFrom_assignRanksFrom (i : Nat) (l : List LBEntry) :
    ranksFrom i (assignRanksFrom i l) = true := by
  induction l generalizing i with
  | nil => rfl
  | cons a t ih => simp [assignRanksFrom, ranksFrom, ih (i + 1)]

/-- C1.  After a recompute, the event leaderboard is sorted in descending
order of the entry score (the combined score judging.totalScore +
publicVotes * 10), ranks are assigned densely 1, 2, 3, … in list order
with no gaps or shared ranks, and the result is a deterministic function
of the input in which tied entries keep their prior relative order: for
every score value q, the entries scoring q list exactly the eligible
submissions whose combined score is q, in their original stored order. -/
theorem updateEventLeaderboard_ranked (ev : Event) (now : Nat) :
    List.Sorted leAfter (updateEventLeaderboard ev now).leaderboard
    ∧ ranksFrom 0 (updateEventLeaderboard ev now).leaderboard = true
    ∧ ∀ q : ℚ,
        ((updateEventLeaderboard ev now).leaderboard.filter
            (fun e => e.totalScore = q)).map (fun e => e.submission)
          = ((ev.submissions.filter eligibleLB).filter
              (fun s => combinedScore s = q)).map (fun s => s.id) := by
  unfold updateEventLeaderboard assignRanks
  dsimp only
  refine ⟨?_, ?_, ?_⟩
  · exact sorted_assignRanksFrom 0 _
      (List.sorted_insertionSort leAfter ((ev.submissions.filter eligibleLB).map (mkLBEntry now)))
  · exact ranksFrom_assignRanksFrom 0 _
  · intro q
    rw [filter_key_assignRanksFrom, sortByScoreDesc_filter_key, List.filter_map,
      List.map_map]
    rfl

/-- C3 counterexample: a submitted submission with a positive combined
score (30, from public votes alone) but zero judge total is left off the
leaderboard by the recompute, contradicting the claimed eligibility rule. -/
theorem updateEventLeaderboard_excludes_votes_only :
    combinedScore sC3 = 30 ∧ sC3.status = SubStatus.submitted
    ∧ (updateEventLeaderboard evC3 0).leaderboard = [] := by
  refine ⟨by norm_num [combinedScore, sC3], rfl, rfl⟩

/-- C3 (amended).  After a recompute the leaderboard holds exactly one
entry per submission of the event whose status is submitted and whose
judging.totalScore is positive (votes alone never qualify a submission),
and every entry references a submission currently stored on the event, so
a deleted submission is gone after the next recompute. -/
theorem updateEventLeaderboard_membership (ev : Event) (now : Nat) :
    ((updateEventLeaderboard ev now).leaderboard.map (fun e => e.submission)).Perm
        ((ev.submissions.filter eligibleLB).map (fun s => s.id))
    ∧ ((updateEventLeaderboard ev now).leaderboard.map (fun e => e.submission)).all
        (fun i => decide (i ∈ ev.submissions.map (fun s => s.id))) = true := by
  have hp : ((updateEventLeaderboard ev now).leaderboard.map (fun e => e.submission)).Perm
      ((ev.submissions.filter eligibleLB).map (fun s => s.id)) := by
    unfold updateEventLeaderboard assignRanks
    dsimp only
    rw [map_submission_assignRanksFrom]
    have hperm := (List.perm_insertionSort leAfter
      ((ev.submissions.filter eligibleLB).map (mkLBEntry now))).map (fun e => e.submission)
    unfold sortByScoreDesc
    rw [List.map_map] at hperm
    exact hperm
  refine ⟨hp, ?_⟩
  rw [List.all_eq_true]
  intro x hx
  have hx2 := hp.mem_iff.mp hx
  rcases List.mem_map.mp hx2 with ⟨s, hs, hid⟩
  have hs2 : s ∈ ev.submissions := List.mem_of_mem_filter hs
  exact decide_eq_true (List.mem_map.mpr ⟨s, hs2, hid⟩)

/-- C9.  Reading a leaderboard never mutates stored state: the GET route
sorts and re-ranks only its in-memory copy, and its save always rejects
in the Event pre-save stats hook because the participants, teams and
submissions paths are projected out of the query that loaded the
document — so for every event the stored state is returned unchanged and
the route answers an error; in particular even on a stored leaderboard
that the sort would have reordered, nothing is persisted, leaving the
leaderboard field written only by the rebuild paths. -/
theorem getLeaderboardRoute_never_mutates (ev : Event) :
    (getLeaderboardRoute ev).1 = ev
    ∧ (getLeaderboardRoute ev).2 = Except.error "Server error"
    ∧ assignRanks (sortByScoreDesc evR.leaderboard) ≠ evR.leaderboard
    ∧ (getLeaderboardRoute evR).1 = evR :=
  ⟨rfl, rfl, by decide, rfl⟩

/-- C10 counterexample: on an event holding one draft, already judged,
vote-free submission, the organizer-triggered rebuild produces one
leaderboard entry while the mutation-triggered rebuild produces none, so
the two implementations are not equivalent. -/
theorem leaderboard_rebuilds_disagree :
    (updateLeaderboardRoute evC10 1 0).toOption.map (fun e2 => e2.leaderboard.length) = some 1
    ∧ (updateEventLeaderboard evC10 0).leaderboard.length = 0 := ⟨rfl, rfl⟩

/-- C10 (amended).  The two rebuilds are not equivalent in general: the
organizer route keeps every submission (regardless of status or score)
and scores it by judging.totalScore alone, while the mutation path keeps
only submitted submissions with positive judge total and adds
publicVotes*10.  They do agree whenever every submission is submitted,
not pending auto-judging, has a positive judge total and a zero
public-vote average (a sufficient condition). -/
theorem leaderboard_rebuilds_agree (ev : Event) (u : Nat) (now : Nat)
    (horg : ev.organizer = u)
    (hall : ∀ s ∈ ev.submissions, s.status = SubStatus.submitted
        ∧ s.judging.status ≠ JudgingStatus.pending
        ∧ 0 < s.judging.totalScore ∧ s.voting.publicVotes = 0) :
    (updateLeaderboardRoute ev u now).toOption.map (fun e2 => e2.leaderboard)
      = some ((updateEventLeaderboard ev now).leaderboard) := by
  unfold updateLeaderboardRoute
  rw [if_neg (by simp [horg])]
  have hsubs : ev.submissions.map (fun s =>
      if s.judging.status = JudgingStatus.pending then
        match autoJudge s now with
        | Except.ok s1 => s1
        | Except.error _ => s
      else s) = ev.submissions := by
    have hcong : ∀ s ∈ ev.submissions, (if s.judging.status = JudgingStatus.pending then
        match autoJudge s now with
        | Except.ok s1 => s1
        | Except.error _ => s
      else s) = id s := by
      intro s hs
      rw [if_neg (hall s hs).2.1]
      rfl
    rw [List.map_congr_left hcong, List.map_id]
  have hfilter : ev.submissions.filter eligibleLB = ev.submissions := by
    rw [List.filter_eq_self]
    intro s hs
    simp [eligibleLB, (hall s hs).1, (hall s hs).2.2.1]
  have hent : ev.submissions.map (mkOrgLBEntry now) = ev.submissions.map (mkLBEntry now) := by
    apply List.map_congr_left
    intro s hs
    simp [mkOrgLBEntry, mkLBEntry, combinedScore, (hall s hs).2.2.2]
  dsimp only [Except.toOption, Except.map]
  unfold updateEventLeaderboard
  rw [hsubs, hfilter, hent]
  rfl

/-- C10 witness: on an event with a single submitted, judged, vote-free
submission the two rebuilds produce the same leaderboard. -/
theorem leaderboard_rebuilds_agree_w :
    (updateLeaderboardRoute evW10 1 0).toOption.map (fun e2 => e2.leaderboard)
      = some ((updateEventLeaderboard evW10 0).leaderboard) :=
  leaderboard_rebuilds_agree evW10 1 0 rfl (by decide)
